import Mathlib

/-!
Verification of the Plinko session engine (`src/main.py`).

Money amounts are modelled as exact rationals (`ℚ`); the Python source uses
floats, but every claim under study is about the exact arithmetic the code
performs, so `ℚ` is the faithful idealisation.  The per-user persistent state
is an optional `GameSession` row plus an append-only list of `Round` records;
each HTTP handler becomes a pure function on that state.
-/

namespace Plinko

/-- `INITIAL_BALANCE = 5.0` from `src/main.py`. -/
def INITIAL_BALANCE : ℚ := 5.0

/-- `MIN_BET = 1.0` from `src/main.py`. -/
def MIN_BET : ℚ := 1.0

/-- `MAX_BET = 5.0` from `src/main.py`. -/
def MAX_BET : ℚ := 5.0

/-- `MULTIPLIER_DISTRIBUTION` from `src/main.py`: the fixed 9-entry table of
(multiplier, probability) pairs, in source order. -/
def MULTIPLIER_DISTRIBUTION : List (ℕ × ℚ) :=
  [(0, 0.6516), (1, 0.18), (2, 0.14), (5, 0.015), (10, 0.008),
   (25, 0.004), (50, 0.001), (100, 0.0003), (1000, 0.0001)]

/-- The loop body of `pick_multiplier`: walk the remaining table entries
accumulating probability `acc`; return the first multiplier whose cumulative
probability reaches the sample `r`; on exhaustion fall back to the last entry
of the global table (`MULTIPLIER_DISTRIBUTION[-1]["m"]` in the source). -/
def pick_multiplier_from (r : ℚ) : ℚ → List (ℕ × ℚ) → ℕ
  | _, [] => (MULTIPLIER_DISTRIBUTION.getLastD (0, 0)).1
  | acc, (m, p) :: rest =>
      if r ≤ acc + p then m else pick_multiplier_from r (acc + p) rest

/-- `pick_multiplier` from `src/main.py`, with the uniform sample `r`
(produced by `random.random()` in the source) made an explicit argument. -/
def pick_multiplier (r : ℚ) : ℕ :=
  pick_multiplier_from r 0 MULTIPLIER_DISTRIBUTION

/-- One `game_sessions` row (the fields the engine reads and writes;
`updated_at` is observability-only and not part of the logical state). -/
structure GameSession where
  balance : ℚ
  balls_played : ℕ
  cashed_out : Bool
  finished : Bool
deriving DecidableEq, Repr

/-- One `game_rounds` row, appended once per successful wager. -/
structure Round where
  stake : ℚ
  multiplier : ℕ
  win_amount : ℚ
deriving DecidableEq, Repr

/-- The error taxonomy of the engine (the source raises HTTP 400s with
distinct messages; the spec names them as below). -/
inductive GameError where
  | SessionNotFound
  | SessionTerminal
  | InsufficientBalance
deriving DecidableEq, Repr

/-- The stake clamp in `drop_ball`: `max(MIN_BET, min(MAX_BET, stake))`. -/
def clampStake (x : ℚ) : ℚ :=
  max MIN_BET (min MAX_BET x)

/-- `init_session` from `src/main.py`: if a `game_sessions` row exists return
it unchanged, otherwise create one with the initial balance (the database
defaults give `balls_played = 0`, `cashed_out = false`, `finished = false`). -/
def init_session (gs : Option GameSession) : GameSession :=
  match gs with
  | some s => s
  | none =>
      { balance := INITIAL_BALANCE, balls_played := 0,
        cashed_out := false, finished := false }

/-- `drop_ball` from `src/main.py` (the wager operation): clamp the stake,
then fail on a missing or terminal session or an insufficient balance;
otherwise debit the stake, draw a multiplier from the sample `r`, credit
`stake * multiplier`, bump `balls_played`, and report the updated row together
with the `game_rounds` record the source inserts. -/
def drop_ball (gs : Option GameSession) (requestedStake r : ℚ) :
    Except GameError (GameSession × Round) :=
  let stake := clampStake requestedStake
  match gs with
  | none => .error .SessionNotFound
  | some s =>
      if s.finished || s.cashed_out then .error .SessionTerminal
      else if s.balance < stake then .error .InsufficientBalance
      else
        let multiplier := pick_multiplier r
        let win_amount := stake * (multiplier : ℚ)
        let balance := s.balance - stake + win_amount
        .ok ({ s with balance := balance, balls_played := s.balls_played + 1 },
             { stake := stake, multiplier := multiplier, win_amount := win_amount })

/-- `cashout` from `src/main.py`: fail on a missing session; if already
cashed out return the row unchanged; otherwise set both terminal flags. -/
def cashout (gs : Option GameSession) : Except GameError GameSession :=
  match gs with
  | none => .error .SessionNotFound
  | some s =>
      if s.cashed_out then .ok s
      else .ok { s with cashed_out := true, finished := true }

/-- The three state-machine operations on one user's session.  `drop` carries
the requested stake and the uniform sample consumed by the draw. -/
inductive Op where
  | init
  | drop (requestedStake r : ℚ)
  | cash
deriving DecidableEq, Repr

/-- The persistent state for one user: the optional session row and the
append-only `game_rounds` history. -/
structure World where
  session : Option GameSession
  rounds : List Round
deriving DecidableEq, Repr

/-- The state before the first request: no row, empty history. -/
def World.start : World :=
  { session := none, rounds := [] }

/-- One request against the store: a failed operation rolls back (state
unchanged); a successful wager persists the row and appends one round;
`init` and `cash` persist the row the handler returns. -/
def stepW (w : World) (op : Op) : World :=
  match op with
  | .init => { w with session := some (init_session w.session) }
  | .drop req r =>
      match drop_ball w.session req r with
      | .ok (s, rd) => { session := some s, rounds := w.rounds ++ [rd] }
      | .error _ => w
  | .cash =>
      match cashout w.session with
      | .ok s => { w with session := some s }
      | .error _ => w

/-- Run a request sequence from the empty state. -/
def run (ops : List Op) : World :=
  ops.foldl stepW World.start

/-- A state is reachable when some request sequence produces it. -/
def Reachable (w : World) : Prop :=
  ∃ ops, run ops = w

/-- The two terminal flags agree (they are only ever set together). -/
def flagsOk (w : World) : Prop :=
  ∀ s, w.session = some s → s.finished = s.cashed_out

/-- Closed form of the table walk: `pick_multiplier` is a cascade of
threshold comparisons against the cumulative probabilities of the table. -/
theorem pick_multiplier_closed (r : ℚ) :
    pick_multiplier r =
      if r ≤ 0.6516 then 0
      else if r ≤ 0.8316 then 1
      else if r ≤ 0.9716 then 2
      else if r ≤ 0.9866 then 5
      else if r ≤ 0.9946 then 10
      else if r ≤ 0.9986 then 25
      else if r ≤ 0.9996 then 50
      else if r ≤ 0.9999 then 100
      else 1000 := by
  simp only [pick_multiplier, MULTIPLIER_DISTRIBUTION, pick_multiplier_from]
  norm_num

/-- A successful wager: with a live session and sufficient balance,
`drop_ball` debits the clamped stake, credits `stake * multiplier`, and bumps
the play count, reporting the matching round record. -/
theorem drop_ball_ok_eq (s : GameSession) (req r : ℚ)
    (hfin : s.finished = false) (hco : s.cashed_out = false)
    (hbal : clampStake req ≤ s.balance) :
    drop_ball (some s) req r =
      .ok ({ s with
               balance := s.balance - clampStake req
                            + clampStake req * (pick_multiplier r : ℚ),
               balls_played := s.balls_played + 1 },
           { stake := clampStake req, multiplier := pick_multiplier r,
             win_amount := clampStake req * (pick_multiplier r : ℚ) }) := by
  simp only [drop_ball, hfin, hco, Bool.or_self, Bool.false_eq_true, if_false,
    not_lt.mpr hbal]

/-- Every step preserves the agreement of the two terminal flags. -/
theorem flagsOk_step (w : World) (op : Op) (h : flagsOk w) :
    flagsOk (stepW w op) := by
  intro s2 hs2
  cases op with
  | init =>
      simp only [stepW, Option.some.injEq] at hs2
      cases hw : w.session with
      | none =>
          rw [hw] at hs2
          simp [init_session] at hs2
          rw [← hs2]
      | some s =>
          rw [hw] at hs2
          simp [init_session] at hs2
          subst hs2
          exact h s hw
  | drop req rr =>
      simp only [stepW] at hs2
      cases hd : drop_ball w.session req rr with
      | error e => rw [hd] at hs2; exact h s2 hs2
      | ok p =>
          rw [hd] at hs2
          simp at hs2
          cases hw : w.session with
          | none => rw [hw] at hd; simp [drop_ball] at hd
          | some s =>
              rw [hw] at hd
              simp only [drop_ball] at hd
              by_cases hterm : (s.finished || s.cashed_out) = true
              · simp [hterm] at hd
              · simp only [Bool.not_eq_true] at hterm
                rw [hterm] at hd
                simp only [Bool.false_eq_true, if_false] at hd
                by_cases hbal : s.balance < clampStake req
                · simp [hbal] at hd
                · simp [hbal] at hd
                  rw [← hs2, ← hd]
                  exact h s hw
  | cash =>
      simp only [stepW] at hs2
      cases hc : cashout w.session with
      | error e => rw [hc] at hs2; exact h s2 hs2
      | ok s =>
          rw [hc] at hs2
          simp at hs2
          cases hw : w.session with
          | none => rw [hw] at hc; simp [cashout] at hc
          | some s0 =>
              rw [hw] at hc
              simp only [cashout] at hc
              by_cases hco : s0.cashed_out = true
              · simp [hco] at hc
                rw [← hs2, ← hc]
                rw [h s0 hw, hco]
              · simp [hco] at hc
                rw [← hs2, ← hc]

/-- The flag-agreement invariant holds after any request sequence. -/
theorem flagsOk_run (ops : List Op) : flagsOk (run ops) := by
  suffices h : ∀ w, flagsOk w → flagsOk (ops.foldl stepW w) by
    exact h World.start (by intro s hs; simp [World.start] at hs)
  induction ops with
  | nil => intro w hw; exact hw
  | cons op rest ih =>
      intro w hw
      exact ih (stepW w op) (flagsOk_step w op hw)

/-- On every reachable state, `finished` and `cashed_out` agree. -/
theorem reachable_flagsOk {w : World} (h : Reachable w) : flagsOk w := by
  obtain ⟨ops, hops⟩ := h
  rw [← hops]
  exact flagsOk_run ops

/-- Claim C1: for every successful wager (session exists, not terminal,
clamped stake at most the balance), the new balance equals
`balance - clampedStake + clampedStake * multiplier` where the multiplier is
the drawn outcome, and `balls_played` increases by exactly 1. -/
theorem wager_balance_equation (s : GameSession) (req r : ℚ)
    (hfin : s.finished = false) (hco : s.cashed_out = false)
    (hbal : clampStake req ≤ s.balance) :
    drop_ball (some s) req r =
      .ok ({ s with
               balance := s.balance - clampStake req
                            + clampStake req * (pick_multiplier r : ℚ),
               balls_played := s.balls_played + 1 },
           { stake := clampStake req, multiplier := pick_multiplier r,
             win_amount := clampStake req * (pick_multiplier r : ℚ) }) :=
  drop_ball_ok_eq s req r hfin hco hbal

/-- Witness for C1: a fresh session wagering 3 on a sample drawing
multiplier 1 ends with balance `5 - 3 + 3 = 5` and one ball played. -/
theorem wager_balance_equation_witness :
    drop_ball (some { balance := 5, balls_played := 0,
                      cashed_out := false, finished := false }) 3 (7/10) =
      .ok ({ balance := 5, balls_played := 1,
             cashed_out := false, finished := false },
           { stake := 3, multiplier := 1, win_amount := 3 }) := by
  have h := wager_balance_equation
    { balance := 5, balls_played := 0, cashed_out := false, finished := false }
    3 (7/10) rfl rfl
    (by norm_num [clampStake, MIN_BET, MAX_BET])
  rw [h, pick_multiplier_closed]
  norm_num [clampStake, MIN_BET, MAX_BET]

/-- Claim C2: the terminal state is absorbing.  On every reachable state
whose session has `finished = true` (equivalently `cashed_out = true`), every
operation leaves the whole state (balance, play count, flags, history)
unchanged. -/
theorem terminal_absorbing (w : World) (s : GameSession) (op : Op)
    (hreach : Reachable w) (hs : w.session = some s)
    (hfin : s.finished = true) :
    stepW w op = w := by
  have hco : s.cashed_out = true := by
    have := reachable_flagsOk hreach s hs
    rw [← this, hfin]
  cases op with
  | init =>
      simp only [stepW, hs, init_session]
      cases w
      simp_all
  | drop req r =>
      simp only [stepW, hs, drop_ball, hfin, Bool.true_or, if_true]
  | cash =>
      simp only [stepW, hs, cashout, hco, if_true]
      cases w
      simp_all

/-- Witness for C2: after creating a session and cashing out, a further
`init` request leaves the state untouched. -/
theorem terminal_absorbing_witness :
    stepW (run [Op.init, Op.cash]) Op.init = run [Op.init, Op.cash] := by
  have h := terminal_absorbing (run [Op.init, Op.cash])
    { balance := INITIAL_BALANCE, balls_played := 0,
      cashed_out := true, finished := true }
    Op.init ⟨[Op.init, Op.cash], rfl⟩ (by rfl) rfl
  exact h

/-- Claim C3: every requested stake is clamped into
`[MIN_BET, MAX_BET] = [1, 5]` and the clamped value is exactly what a
successful wager charges and reports: `0.5` is charged as `1`, `100` as `5`,
and out-of-range input is never rejected. -/
theorem stake_clamp_spec (x : ℚ) (s : GameSession) (r : ℚ)
    (hfin : s.finished = false) (hco : s.cashed_out = false)
    (hbal : clampStake x ≤ s.balance) :
    MIN_BET ≤ clampStake x ∧ clampStake x ≤ MAX_BET ∧
    clampStake (1/2) = 1 ∧ clampStake 100 = 5 ∧
    ∃ s2 rd, drop_ball (some s) x r = .ok (s2, rd) ∧
      rd.stake = clampStake x ∧
      s2.balance = s.balance - clampStake x + rd.win_amount := by
  refine ⟨le_max_left _ _, ?_, ?_, ?_, ?_⟩
  · exact max_le (by norm_num [MIN_BET, MAX_BET]) (min_le_left _ _)
  · norm_num [clampStake, MIN_BET, MAX_BET]
  · norm_num [clampStake, MIN_BET, MAX_BET]
  · exact ⟨_, _, drop_ball_ok_eq s x r hfin hco hbal, rfl, rfl⟩

/-- Witness for C3: a fresh session asked to stake `0.5` is charged the
clamped value `1`. -/
theorem stake_clamp_spec_witness :
    MIN_BET ≤ clampStake (1/2) ∧ clampStake (1/2) ≤ MAX_BET ∧
    clampStake (1/2) = 1 ∧ clampStake 100 = 5 ∧
    ∃ s2 rd, drop_ball
        (some { balance := 5, balls_played := 0,
                cashed_out := false, finished := false }) (1/2) (7/10) =
        .ok (s2, rd) ∧
      rd.stake = clampStake (1/2) ∧
      s2.balance = 5 - clampStake (1/2) + rd.win_amount :=
  stake_clamp_spec (1/2)
    { balance := 5, balls_played := 0, cashed_out := false, finished := false }
    (7/10) rfl rfl (by norm_num [clampStake, MIN_BET, MAX_BET])

/-- Claim C4: on a live session, a wager fails with `InsufficientBalance`
precisely when the clamped stake strictly exceeds the balance (equality
succeeds), and such a failure leaves balance, play count and the round
history unchanged. -/
theorem insufficient_balance_iff (w : World) (s : GameSession) (req r : ℚ)
    (hs : w.session = some s)
    (hfin : s.finished = false) (hco : s.cashed_out = false) :
    (drop_ball (some s) req r = .error .InsufficientBalance ↔
      s.balance < clampStake req) ∧
    (s.balance < clampStake req → stepW w (Op.drop req r) = w) ∧
    (clampStake req ≤ s.balance →
      ∃ s2 rd, drop_ball (some s) req r = .ok (s2, rd)) := by
  refine ⟨⟨?_, ?_⟩, ?_, ?_⟩
  · intro h
    by_contra hnot
    rw [drop_ball_ok_eq s req r hfin hco (not_lt.mp hnot)] at h
    exact Except.noConfusion h
  · intro h
    simp [drop_ball, hfin, hco, h]
  · intro h
    simp only [stepW, hs, drop_ball, hfin, hco, Bool.or_self, Bool.false_eq_true,
      if_false, h, if_true]
  · intro h
    exact ⟨_, _, drop_ball_ok_eq s req r hfin hco h⟩

/-- Witness for C4: a session holding 2 cannot cover a clamped stake of 5;
the attempt errors and the state is untouched. -/
theorem insufficient_balance_iff_witness :
    drop_ball (some { balance := 2, balls_played := 3,
                      cashed_out := false, finished := false }) 5 (7/10) =
      .error .InsufficientBalance ∧
    stepW { session := some { balance := 2, balls_played := 3,
                              cashed_out := false, finished := false },
            rounds := [] } (Op.drop 5 (7/10)) =
      { session := some { balance := 2, balls_played := 3,
                          cashed_out := false, finished := false },
        rounds := [] } := by
  have h := insufficient_balance_iff
    { session := some { balance := 2, balls_played := 3,
                        cashed_out := false, finished := false }, rounds := [] }
    { balance := 2, balls_played := 3, cashed_out := false, finished := false }
    5 (7/10) rfl rfl rfl
  have hlt : (2 : ℚ) < clampStake 5 := by norm_num [clampStake, MIN_BET, MAX_BET]
  exact ⟨h.1.mpr hlt, h.2.1 hlt⟩

/-- Claim C5: `cashout` is idempotent.  On every reachable state whose
session is already cashed out, `cashout` returns that very row (same balance,
`cashed_out = true`, `finished = true`) and the step mutates nothing. -/
theorem cashout_idempotent (w : World) (s : GameSession)
    (hreach : Reachable w) (hs : w.session = some s)
    (hco : s.cashed_out = true) :
    cashout (some s) = .ok s ∧ s.finished = true ∧ stepW w Op.cash = w := by
  have hfin : s.finished = true := by
    rw [reachable_flagsOk hreach s hs, hco]
  refine ⟨by simp [cashout, hco], hfin, ?_⟩
  simp only [stepW, hs, cashout, hco, if_true]
  cases w
  simp_all

/-- Witness for C5: cashing out twice — the second `cashout` returns the
frozen row and the state stays exactly as after the first. -/
theorem cashout_idempotent_witness :
    cashout (some { balance := INITIAL_BALANCE, balls_played := 0,
                    cashed_out := true, finished := true }) =
      .ok { balance := INITIAL_BALANCE, balls_played := 0,
            cashed_out := true, finished := true } ∧
    stepW (run [Op.init, Op.cash]) Op.cash = run [Op.init, Op.cash] := by
  have h := cashout_idempotent (run [Op.init, Op.cash])
    { balance := INITIAL_BALANCE, balls_played := 0,
      cashed_out := true, finished := true }
    ⟨[Op.init, Op.cash], rfl⟩ (by rfl) rfl
  exact ⟨h.1, h.2.2⟩

/-- Claim C6: session creation is idempotent and exactly-once.  The first
`init` request creates the single session row with balance 5, zero balls and
both flags false; any later `init` on a state that already has a row returns
that row unchanged and creates nothing. -/
theorem init_idempotent_exactly_once (w : World) (s : GameSession)
    (hs : w.session = some s) :
    stepW World.start Op.init =
      { session := some { balance := INITIAL_BALANCE, balls_played := 0,
                          cashed_out := false, finished := false },
        rounds := [] } ∧
    init_session (some s) = s ∧
    stepW w Op.init = w := by
  refine ⟨rfl, rfl, ?_⟩
  simp only [stepW, hs, init_session]
  cases w
  simp_all

/-- Witness for C6: running `init` twice from the empty state creates the
fresh row once and the second call changes nothing. -/
theorem init_idempotent_exactly_once_witness :
    stepW World.start Op.init =
      { session := some { balance := INITIAL_BALANCE, balls_played := 0,
                          cashed_out := false, finished := false },
        rounds := [] } ∧
    stepW (stepW World.start Op.init) Op.init = stepW World.start Op.init := by
  have h := init_idempotent_exactly_once (stepW World.start Op.init)
    { balance := INITIAL_BALANCE, balls_played := 0,
      cashed_out := false, finished := false }
    (by rfl)
  exact ⟨h.1, h.2.2⟩

/-- Claim C7: the outcome draw walks the table in source order accumulating
probabilities and returns the first multiplier whose cumulative probability
reaches the sample; an exhausted walk falls back to the last entry (1000);
hence every draw lies in {0, 1, 2, 5, 10, 25, 50, 100, 1000}. -/
theorem pick_multiplier_walk_spec (r : ℚ) :
    (∀ acc, pick_multiplier_from r acc [] = 1000) ∧
    pick_multiplier r ∈ ([0, 1, 2, 5, 10, 25, 50, 100, 1000] : List ℕ) ∧
    (r ≤ 0.6516 → pick_multiplier r = 0) ∧
    (0.6516 < r → r ≤ 0.8316 → pick_multiplier r = 1) ∧
    (0.8316 < r → r ≤ 0.9716 → pick_multiplier r = 2) ∧
    (0.9716 < r → r ≤ 0.9866 → pick_multiplier r = 5) ∧
    (0.9866 < r → r ≤ 0.9946 → pick_multiplier r = 10) ∧
    (0.9946 < r → r ≤ 0.9986 → pick_multiplier r = 25) ∧
    (0.9986 < r → r ≤ 0.9996 → pick_multiplier r = 50) ∧
    (0.9996 < r → r ≤ 0.9999 → pick_multiplier r = 100) ∧
    (0.9999 < r → pick_multiplier r = 1000) := by
  have hc := pick_multiplier_closed r
  refine ⟨?_, ?_, ?_, ?_, ?_, ?_, ?_, ?_, ?_, ?_, ?_⟩
  · intro acc
    simp [pick_multiplier_from, MULTIPLIER_DISTRIBUTION]
  · rw [hc]
    split_ifs <;> simp
  · intro h1
    rw [hc, if_pos h1]
  · intro h1 h2
    rw [hc, if_neg (by linarith), if_pos h2]
  · intro h1 h2
    rw [hc, if_neg (by linarith), if_neg (by linarith), if_pos h2]
  · intro h1 h2
    rw [hc, if_neg (by linarith), if_neg (by linarith), if_neg (by linarith),
      if_pos h2]
  · intro h1 h2
    rw [hc, if_neg (by linarith), if_neg (by linarith), if_neg (by linarith),
      if_neg (by linarith), if_pos h2]
  · intro h1 h2
    rw [hc, if_neg (by linarith), if_neg (by linarith), if_neg (by linarith),
      if_neg (by linarith), if_neg (by linarith), if_pos h2]
  · intro h1 h2
    rw [hc, if_neg (by linarith), if_neg (by linarith), if_neg (by linarith),
      if_neg (by linarith), if_neg (by linarith), if_neg (by linarith),
      if_pos h2]
  · intro h1 h2
    rw [hc, if_neg (by linarith), if_neg (by linarith), if_neg (by linarith),
      if_neg (by linarith), if_neg (by linarith), if_neg (by linarith),
      if_neg (by linarith), if_pos h2]
  · intro h1
    rw [hc, if_neg (by linarith), if_neg (by linarith), if_neg (by linarith),
      if_neg (by linarith), if_neg (by linarith), if_neg (by linarith),
      if_neg (by linarith), if_neg (by linarith)]

/-- Witness for C7: the sample `0.7` lands in the second band and draws
multiplier 1. -/
theorem pick_multiplier_walk_spec_witness :
    pick_multiplier (7/10) = 1 :=
  (pick_multiplier_walk_spec (7/10)).2.2.2.1 (by norm_num) (by norm_num)

/-- Claim C8: on a session with `finished` or `cashed_out` set, every wager
attempt fails with `SessionTerminal` and leaves the state unchanged. -/
theorem terminal_wager_fails (w : World) (s : GameSession) (req r : ℚ)
    (hs : w.session = some s)
    (hterm : s.finished = true ∨ s.cashed_out = true) :
    drop_ball (some s) req r = .error .SessionTerminal ∧
    stepW w (Op.drop req r) = w := by
  have hor : (s.finished || s.cashed_out) = true := by
    rcases hterm with h | h <;> simp [h]
  exact ⟨by simp [drop_ball, hor], by simp [stepW, hs, drop_ball, hor]⟩

/-- Witness for C8: wagering on the cashed-out session after `init; cash`
errors with `SessionTerminal` and mutates nothing. -/
theorem terminal_wager_fails_witness :
    drop_ball (some { balance := INITIAL_BALANCE, balls_played := 0,
                      cashed_out := true, finished := true }) 1 (7/10) =
      .error .SessionTerminal ∧
    stepW (run [Op.init, Op.cash]) (Op.drop 1 (7/10)) =
      run [Op.init, Op.cash] :=
  terminal_wager_fails (run [Op.init, Op.cash])
    { balance := INITIAL_BALANCE, balls_played := 0,
      cashed_out := true, finished := true }
    1 (7/10) (by rfl) (Or.inl rfl)

/-- Claim C9: before the first session creation, both a wager and a cash-out
fail with `SessionNotFound` and create no state. -/
theorem no_session_fails (req r : ℚ) :
    drop_ball none req r = .error .SessionNotFound ∧
    cashout none = .error .SessionNotFound ∧
    stepW World.start (Op.drop req r) = World.start ∧
    stepW World.start Op.cash = World.start :=
  ⟨rfl, rfl, rfl, rfl⟩

/-- Claim C10: a first successful cash-out only sets the two terminal flags:
balance and `balls_played` are unchanged, and the returned balance is the
balance from before the call. -/
theorem cashout_first_frame (s : GameSession) (hco : s.cashed_out = false) :
    ∃ s2, cashout (some s) = .ok s2 ∧
      s2.balance = s.balance ∧ s2.balls_played = s.balls_played ∧
      s2.cashed_out = true ∧ s2.finished = true :=
  ⟨{ s with cashed_out := true, finished := true },
    by simp [cashout, hco], rfl, rfl, rfl, rfl⟩

/-- Witness for C10: cashing out a session holding 3 after 2 rounds freezes
balance 3 and count 2 while setting both flags. -/
theorem cashout_first_frame_witness :
    ∃ s2, cashout (some { balance := 3, balls_played := 2,
                          cashed_out := false, finished := false }) = .ok s2 ∧
      s2.balance = 3 ∧ s2.balls_played = 2 ∧
      s2.cashed_out = true ∧ s2.finished = true :=
  cashout_first_frame
    { balance := 3, balls_played := 2, cashed_out := false, finished := false }
    rfl

end Plinko
